import Mathlib

/-!
Verification of the kubegems hierarchical resource authorization cache
(`pkg/v2/services/.../cache`, file `RedisModelCache`): the entity model, the
tree builder `BuildCacheIfNotExist`, the per-entity mutation API, the ancestry
resolver `FindParents` / point lookups, and the user authority aggregator
`GetUserAuthority` / `FlushUserAuthority`.

The Redis hash stored under `ModelCacheKey` is embedded as an association list
from cache keys to stored (serialized) values; each cache operation is a pure
function of that state, with explicit boolean parameters injecting the failure
of the individual Redis or relational-store calls the Go code performs.
-/

namespace KubegemsCache

/-- The resource kinds of the tenancy tree (`models.ResTenant`,
`models.ResProject`, `models.ResEnvironment`, `models.ResVirtualSpace`). -/
inductive ResKind where
  | tenant
  | project
  | environment
  | virtualSpace
deriving DecidableEq, Repr

/-- An ownership edge: in the source, `Owner []*Entity` entries are built with
only the `Kind` and `ID` fields populated (weak references, spec section 3). -/
structure OwnerRef where
  kind : ResKind
  id : Nat
deriving DecidableEq, Repr

/-- The cached tenancy-tree node (`Entity`): id, kind, name, the
environment-only `Namespace`/`Cluster` fields, and the ordered owner list. -/
structure Entity where
  name : String
  kind : ResKind
  id : Nat
  ns : String := ""
  cluster : String := ""
  owner : List OwnerRef := []
deriving DecidableEq, Repr

/-- Modelled from the spec: `cacheKey(kind, id)` and `envCacheKey(cluster,
namespace)` are deterministic, collision-free key-derivation functions with
disjoint ranges (spec section 4.1); the concrete string format is not under
`src/`, so keys are embedded as a tagged type whose constructors are exactly
those two injective, mutually disjoint derivations. -/
inductive CacheKey where
  | res (kind : ResKind) (id : Nat)
  | env (cluster ns : String)
deriving DecidableEq, Repr

/-- A value stored in the hash: serialized bytes of an `Entity`.  `ent e` is a
well-formed serialization; `mangled e` is modelled from the spec (section 4.4):
bytes whose owner references the server-side traversal script can still read
but which fail client-side `json.Unmarshal` deserialization. -/
inductive RawVal where
  | ent (e : Entity)
  | mangled (e : Entity)
deriving DecidableEq, Repr

/-- Client-side deserialization (`json.Unmarshal` / `Scan`): succeeds exactly
on well-formed serializations. -/
def decodeRaw : RawVal → Option Entity
  | .ent e => some e
  | .mangled _ => none

/-- The owner references readable from a stored value by the server-side
script (available for both well-formed and mangled serializations). -/
def rawOwner : RawVal → List OwnerRef
  | .ent e => e.owner
  | .mangled e => e.owner

/-- The Redis hash stored under `ModelCacheKey`, as an association list from
cache key to stored value. -/
abbrev Map := List (CacheKey × RawVal)

/-- Redis `HGET`: the value stored at a field of the hash, if present. -/
def hget (m : Map) (k : CacheKey) : Option RawVal :=
  (m.find? (fun p => p.1 = k)).map (fun p => p.2)

/-- Setting one field of the hash (insert-or-replace). -/
def hset (m : Map) (k : CacheKey) (v : RawVal) : Map :=
  (k, v) :: m.filter (fun p => ¬ p.1 = k)

/-- Redis `HDEL`: removing one field of the hash. -/
def hdel (m : Map) (k : CacheKey) : Map :=
  m.filter (fun p => ¬ p.1 = k)

/-- Redis `EXISTS ModelCacheKey`: in Redis a hash key exists iff the hash has at
least one field. -/
def existsKey (m : Map) : Bool :=
  !m.isEmpty

/-- An error returned by a cache or store call (`error` in Go; the concrete
message is irrelevant to the properties). -/
abbrev Err := Unit

/-- One argument of the variadic `HSET` call in go-redis: the flattened
argument list alternates field keys and serialized values. -/
inductive HSetArg where
  | K (k : CacheKey)
  | V (v : RawVal)
deriving DecidableEq, Repr

/-- Parsing the flattened `HSET` argument list into field/value pairs; a list
that does not alternate key, value (for example an odd number of arguments)
is rejected by the Redis server with a wrong-arity error. -/
def parsePairs : List HSetArg → Option (List (CacheKey × RawVal))
  | [] => some []
  | .K k :: .V v :: rest => (parsePairs rest).map (fun l => (k, v) :: l)
  | _ => none

/-- Writing a list of field/value pairs into the hash in order. -/
def hsetAll (m : Map) (kvs : List (CacheKey × RawVal)) : Map :=
  kvs.foldl (fun acc kv => hset acc kv.1 kv.2) m

/-- The call `Redis.HSet(ctx, ModelCacheKey, args...)`: malformed arguments are
rejected without writing; otherwise `fail` injects a backend failure (no
write), and on success every pair is written.  Returns the new hash and the
`error` result of the call. -/
def redisHSet (m : Map) (args : List HSetArg) (fail : Bool) : Map × Option Err :=
  match parsePairs args with
  | none => (m, some ())
  | some kvs => if fail then (m, some ()) else (hsetAll m kvs, none)

/-- The call `Redis.HDel(ctx, ModelCacheKey, k)` with an injected failure flag. -/
def redisHDel (m : Map) (k : CacheKey) (fail : Bool) : Map × Option Err :=
  if fail then (m, some ()) else (hdel m k, none)

/-- Modelled from the spec: `Entity.toPair` supplies the entity's primary
cache key and its serialization as the field/value arguments of the hash
write (spec section 4.3: each upsert writes exactly the entity's primary-key
entry). -/
def Entity.toPair (e : Entity) : List HSetArg :=
  [.K (.res e.kind e.id), .V (.ent e)]

/-- Modelled from the spec: `Entity.toEnvPair` supplies the environment's
secondary cluster/namespace key and the same serialization (spec sections 3
and 4.3). -/
def Entity.toEnvPair (e : Entity) : List HSetArg :=
  [.K (.env e.cluster e.ns), .V (.ent e)]

/-- Source `RedisModelCache.UpsertTenant`: builds the tenant entity and writes its
primary pair. -/
def UpsertTenant (tid : Nat) (name : String) (fail : Bool) (m : Map) : Map × Option Err :=
  let n : Entity := { name := name, kind := .tenant, id := tid }
  redisHSet m n.toPair fail

/-- Source `RedisModelCache.DelTenant`: deletes the tenant's primary key. -/
def DelTenant (tid : Nat) (fail : Bool) (m : Map) : Map × Option Err :=
  redisHDel m (.res .tenant tid) fail

/-- Source `RedisModelCache.UpsertProject`: builds the project entity (owner: the
tenant) and writes its primary pair. -/
def UpsertProject (tid pid : Nat) (name : String) (fail : Bool) (m : Map) : Map × Option Err :=
  let n : Entity := { name := name, kind := .project, id := pid, owner := [⟨.tenant, tid⟩] }
  redisHSet m n.toPair fail

/-- Source `RedisModelCache.DelProject`: deletes the project's primary key (the
tenant id is used only for logging). -/
def DelProject (_tid pid : Nat) (fail : Bool) (m : Map) : Map × Option Err :=
  redisHDel m (.res .project pid) fail

/-- The environment entity built by `UpsertEnvironment`. -/
def envEntity (pid eid : Nat) (name cluster ns : String) : Entity :=
  { name := name, kind := .environment, id := eid, ns := ns, cluster := cluster,
    owner := [⟨.project, pid⟩] }

/-- Source `RedisModelCache.UpsertEnvironment`: writes the primary pair, returning
early on its failure, then the secondary cluster/namespace pair. -/
def UpsertEnvironment (pid eid : Nat) (name cluster ns : String)
    (fail1 fail2 : Bool) (m : Map) : Map × Option Err :=
  let n := envEntity pid eid name cluster ns
  let r1 := redisHSet m n.toPair fail1
  match r1.2 with
  | some e => (r1.1, some e)
  | none =>
    let r2 := redisHSet r1.1 n.toEnvPair fail2
    match r2.2 with
    | some e => (r2.1, some e)
    | none => (r2.1, none)

/-- Source `RedisModelCache.DelEnvironment`: deletes the primary key, returning
early on failure, then the secondary cluster/namespace key. -/
def DelEnvironment (_pid eid : Nat) (cluster ns : String)
    (fail1 fail2 : Bool) (m : Map) : Map × Option Err :=
  let r1 := redisHDel m (.res .environment eid) fail1
  match r1.2 with
  | some e => (r1.1, some e)
  | none =>
    let r2 := redisHDel r1.1 (.env cluster ns) fail2
    match r2.2 with
    | some e => (r2.1, some e)
    | none => (r2.1, none)

/-- Source `RedisModelCache.UpsertVirtualSpace`: the source passes only
`cacheKey(models.ResVirtualSpace, vid)` to `HSet` — no entity is constructed
and no value argument is supplied, so the flattened argument list has a key
with no value (the `name` argument is used only in the log message). -/
def UpsertVirtualSpace (vid : Nat) (_name : String) (fail : Bool) (m : Map) : Map × Option Err :=
  redisHSet m [.K (.res .virtualSpace vid)] fail

/-- Source `RedisModelCache.DelVirtualSpace`: deletes the virtual space's primary
key. -/
def DelVirtualSpace (vid : Nat) (fail : Bool) (m : Map) : Map × Option Err :=
  redisHDel m (.res .virtualSpace vid) fail

/-- A tenant row of the relational store (`models.Tenant`: `ID`,
`TenantName`). -/
structure DBTenant where
  id : Nat
  tenantName : String
deriving DecidableEq, Repr

/-- A project row (`models.Project`: `ID`, `TenantID`, `ProjectName`). -/
structure DBProject where
  id : Nat
  tenantID : Nat
  projectName : String
deriving DecidableEq, Repr

/-- An environment row (`models.Environment` with its `Cluster` relation
preloaded: `cluster` is the preloaded cluster's `ClusterName`, `none` when
the relation failed to resolve). -/
structure DBEnvironment where
  id : Nat
  projectID : Nat
  environmentName : String
  ns : String
  cluster : Option String
deriving DecidableEq, Repr

/-- A virtual-space row (`models.VirtualSpace`: `ID`, `VirtualSpaceName`). -/
structure DBVirtualSpace where
  id : Nat
  virtualSpaceName : String
deriving DecidableEq, Repr

/-- The relational store's tenancy tables, as read by the tree builder. -/
structure DB where
  tenants : List DBTenant
  projects : List DBProject
  envs : List DBEnvironment
  vspaces : List DBVirtualSpace
deriving DecidableEq, Repr

/-- The `dataMap` built by `BuildCacheIfNotExist`: one entity per tenant,
project, environment (under both its keys; rows with an unresolved cluster
are skipped) and virtual space, inserted in source order into a Go map
(insert-or-replace). -/
def buildDataMap (db : DB) : Map :=
  let dm : Map := []
  let dm := db.tenants.foldl (fun acc tenant =>
    let n : Entity := { name := tenant.tenantName, kind := .tenant, id := tenant.id }
    hset acc (.res n.kind n.id) (.ent n)) dm
  let dm := db.projects.foldl (fun acc project =>
    let n : Entity := { name := project.projectName, kind := .project, id := project.id,
                        owner := [⟨.tenant, project.tenantID⟩] }
    hset acc (.res n.kind n.id) (.ent n)) dm
  let dm := db.envs.foldl (fun acc env =>
    match env.cluster with
    | none => acc
    | some clusterName =>
      let n : Entity := { name := env.environmentName, kind := .environment, id := env.id,
                          ns := env.ns, cluster := clusterName,
                          owner := [⟨.project, env.projectID⟩] }
      hset (hset acc (.res n.kind n.id) (.ent n)) (.env n.cluster n.ns) (.ent n)) dm
  db.vspaces.foldl (fun acc vspace =>
    let n : Entity := { name := vspace.virtualSpaceName, kind := .virtualSpace, id := vspace.id,
                        owner := [] }
    hset acc (.res n.kind n.id) (.ent n)) dm

/-- Source `RedisModelCache.BuildCacheIfNotExist`: a no-op when the top-level key
already exists; otherwise reads the full tenancy tree, builds `dataMap`,
treats an empty result as success without writing, and otherwise performs
one bulk `HSet` of the whole map (`hsetFail` injects that write failing,
which aborts with an error and no write). -/
def BuildCacheIfNotExist (db : DB) (hsetFail : Bool) (m : Map) : Map × Option Err :=
  if existsKey m then (m, none)
  else
    let dataMap := buildDataMap db
    if dataMap.isEmpty then (m, none)
    else if hsetFail then (m, some ())
    else (hsetAll m dataMap, none)

/-- Source `RedisModelCache.FindResource`: a point lookup at the primary key;
`Scan` failure (key absent or undecodable value) yields nil. -/
def FindResource (m : Map) (kind : ResKind) (id : Nat) : Option Entity :=
  (hget m (.res kind id)).bind decodeRaw

/-- Source `RedisModelCache.FindEnvironment`: a point lookup at the secondary
cluster/namespace key; `Scan` failure yields nil. -/
def FindEnvironment (m : Map) (cluster ns : String) : Option Entity :=
  (hget m (.env cluster ns)).bind decodeRaw

/-- Modelled from the spec: the hop-count bound of the ancestry traversal,
equal to the maximum tree depth, currently 2 (spec section 4.4). -/
def maxFindDepth : Nat := 2

/-- Modelled from the spec: `FindParentScript`, the server-side traversal
evaluated inside Redis (spec section 4.4) — from the entity at
`cacheKey(kind,id)` it follows the owner chain one hop at a time, collecting
the stored raw serializations of the ancestors nearest-parent-first; a node
whose owner list is empty or whose key is absent terminates the walk. -/
def findParentChain (m : Map) : Nat → ResKind → Nat → List RawVal
  | 0, _, _ => []
  | fuel + 1, kind, id =>
    match hget m (.res kind id) with
    | none => []
    | some raw =>
      match rawOwner raw with
      | [] => []
      | o :: _ =>
        match hget m (.res o.kind o.id) with
        | none => []
        | some praw => praw :: findParentChain m fuel o.kind o.id

/-- Source `RedisModelCache.FindParents`: evaluates the traversal script
(`scriptFail` injects a failed `Eval`, which is logged and yields nil), then
unmarshals each returned raw value, skipping the ones that fail to
deserialize. -/
def FindParents (m : Map) (scriptFail : Bool) (kind : ResKind) (id : Nat) : List Entity :=
  if scriptFail then []
  else (findParentChain m maxFindDepth kind id).filterMap decodeRaw

/-- One flattened role assignment in a user's authority (`UserResource`). -/
structure UserResource where
  id : Int
  name : String
  role : String
  isAdmin : Bool
deriving DecidableEq, Repr

/-- The per-user flattened authority (`UserAuthority`). -/
structure UserAuthority where
  systemRole : String
  tenants : List UserResource
  projects : List UserResource
  environments : List UserResource
  virtualSpaces : List UserResource
deriving DecidableEq, Repr

/-- Modelled from the spec: the per-kind administrative role constants
(`models.TenantRoleAdmin`, `models.ProjectRoleAdmin`,
`models.EnvironmentRoleOperator`, `models.VirtualSpaceRoleAdmin`) — distinct
admin-role constant per resource kind; their concrete values are not under
`src/`. -/
def TenantRoleAdmin : String := "admin"

/-- Modelled from the spec: the project administrative role constant. -/
def ProjectRoleAdmin : String := "admin"

/-- Modelled from the spec: the environment administrative role constant. -/
def EnvironmentRoleOperator : String := "operator"

/-- Modelled from the spec: the virtual-space administrative role constant. -/
def VirtualSpaceRoleAdmin : String := "admin"

/-- A system role row (`models.SystemRole`: `ID`, `RoleCode`). -/
structure SystemRole where
  id : Nat
  roleCode : String
deriving DecidableEq, Repr

/-- A tenant role-relation row with its tenant's name joined in
(`models.TenantUserRels` with `Tenant` preloaded). -/
structure TenantUserRel where
  userID : Nat
  tenantID : Nat
  tenantName : String
  role : String
deriving DecidableEq, Repr

/-- A project role-relation row with its project's name joined in. -/
structure ProjectUserRel where
  userID : Nat
  projectID : Nat
  projectName : String
  role : String
deriving DecidableEq, Repr

/-- An environment role-relation row with its environment's name joined in. -/
structure EnvironmentUserRel where
  userID : Nat
  environmentID : Nat
  environmentName : String
  role : String
deriving DecidableEq, Repr

/-- A virtual-space role-relation row with its virtual space's name joined
in. -/
structure VirtualSpaceUserRel where
  userID : Nat
  virtualSpaceID : Nat
  virtualSpaceName : String
  role : String
deriving DecidableEq, Repr

/-- The role-assignment tables consulted by `FlushUserAuthority`. -/
structure AuthDB where
  systemRoles : List SystemRole
  tenantRels : List TenantUserRel
  projectRels : List ProjectUserRel
  environmentRels : List EnvironmentUserRel
  virtualSpaceRels : List VirtualSpaceUserRel
deriving DecidableEq, Repr

/-- A user as seen through `models.CommonUserIface` (`GetUsername`, `GetID`,
`GetSystemRoleID`). -/
structure User where
  username : String
  id : Nat
  systemRoleID : Nat
deriving DecidableEq, Repr

/-- A value stored under a per-user authority key: a well-formed serialized
`UserAuthority` or bytes that fail to deserialize. -/
inductive RawUA where
  | ua (a : UserAuthority)
  | corrupt
deriving DecidableEq, Repr

/-- Deserialization of a stored authority value (`Scan`). -/
def decodeRawUA : RawUA → Option UserAuthority
  | .ua a => some a
  | .corrupt => none

/-- A per-user cache entry: the stored value and the time-to-live (minutes)
it was written with. -/
structure UAEntry where
  value : RawUA
  ttlMinutes : Nat
deriving DecidableEq, Repr

/-- The per-user region of the Redis key space, as an association list from
key string to entry (an expired key is simply absent). -/
abbrev UAStore := List (String × UAEntry)

/-- Lookup of a per-user key (`Redis.Get`). -/
def uaGet (s : UAStore) (k : String) : Option UAEntry :=
  (s.find? (fun p => p.1 = k)).map (fun p => p.2)

/-- Redis `SET` with a time-to-live, insert-or-replace. -/
def uaSet (s : UAStore) (k : String) (v : RawUA) (ttl : Nat) : UAStore :=
  (k, ⟨v, ttl⟩) :: s.filter (fun p => ¬ p.1 = k)

/-- The constant `userAuthorizationDataExpireMinute`. -/
def userAuthorizationDataExpireMinute : Nat := 180

/-- Source `userAuthorityKey`: the per-user cache key. -/
def userAuthorityKey (username : String) : String :=
  "user_authority_data__" ++ username

/-- Which relational queries of `FlushUserAuthority` fail (`sysrole` also
covers the not-found case of `DB.First`), plus the failure of the final
cache write-back. -/
structure FlushFails where
  sysrole : Bool
  tenants : Bool
  projects : Bool
  environments : Bool
  vspaces : Bool
  cacheWrite : Bool
deriving DecidableEq, Repr

/-- Source `RedisModelCache.FlushUserAuthority`: recomputes the user's authority
from the relational store.  Each failed query is logged and leaves that
part at its zero value (the `sysrole` struct keeps an empty `RoleCode`, a
failed `Find` leaves the relation slice empty); the result is written back
with the fixed 180-minute time-to-live, a write failure being logged only;
the computed value is returned in every case. -/
def FlushUserAuthority (user : User) (db : AuthDB) (f : FlushFails)
    (s : UAStore) : UserAuthority × UAStore :=
  let sysroleCode :=
    if f.sysrole then ""
    else match db.systemRoles.find? (fun r => r.id = user.systemRoleID) with
      | none => ""
      | some r => r.roleCode
  let turs := if f.tenants then [] else db.tenantRels.filter (fun r => r.userID = user.id)
  let purs := if f.projects then [] else db.projectRels.filter (fun r => r.userID = user.id)
  let eurs := if f.environments then [] else db.environmentRels.filter (fun r => r.userID = user.id)
  let vurs := if f.vspaces then [] else db.virtualSpaceRels.filter (fun r => r.userID = user.id)
  let auth : UserAuthority :=
    { systemRole := sysroleCode
      tenants := turs.map (fun r =>
        { id := Int.ofNat r.tenantID, name := r.tenantName, role := r.role,
          isAdmin := r.role = TenantRoleAdmin })
      projects := purs.map (fun r =>
        { id := Int.ofNat r.projectID, name := r.projectName, role := r.role,
          isAdmin := r.role = ProjectRoleAdmin })
      environments := eurs.map (fun r =>
        { id := Int.ofNat r.environmentID, name := r.environmentName, role := r.role,
          isAdmin := r.role = EnvironmentRoleOperator })
      virtualSpaces := vurs.map (fun r =>
        { id := Int.ofNat r.virtualSpaceID, name := r.virtualSpaceName, role := r.role,
          isAdmin := r.role = VirtualSpaceRoleAdmin }) }
  let s' :=
    if f.cacheWrite then s
    else uaSet s (userAuthorityKey user.username) (.ua auth) userAuthorizationDataExpireMinute
  (auth, s')

/-- Source `RedisModelCache.GetUserAuthority`: reads and deserializes the per-user
entry; on success returns it unchanged; on any failure (absent key or decode
error) logs and falls through to `FlushUserAuthority`. -/
def GetUserAuthority (user : User) (db : AuthDB) (f : FlushFails)
    (s : UAStore) : UserAuthority × UAStore :=
  match (uaGet s (userAuthorityKey user.username)).bind (fun e => decodeRawUA e.value) with
  | some authinfo => (authinfo, s)
  | none => FlushUserAuthority user db f s

/-! ### Helper lemmas about the hash operations -/

theorem hget_hset_self (m : Map) (k : CacheKey) (v : RawVal) :
    hget (hset m k v) k = some v := by
  simp [hget, hset, List.find?]

theorem find?_filter_ne (m : Map) (k k' : CacheKey) (h : k' ≠ k) :
    (m.filter (fun p => ¬ p.1 = k)).find? (fun p => p.1 = k') =
      m.find? (fun p => p.1 = k') := by
  induction m with
  | nil => rfl
  | cons hd tl ih =>
    by_cases hk : hd.1 = k
    · have hk' : ¬ hd.1 = k' := fun hcon => h (hcon ▸ hk)
      rw [List.filter_cons_of_neg (by simp [hk]), List.find?_cons_of_neg _ (by simp [hk'])]
      exact ih
    · rw [List.filter_cons_of_pos (by simp [hk])]
      by_cases hk' : hd.1 = k'
      · rw [List.find?_cons_of_pos _ (by simp [hk']), List.find?_cons_of_pos _ (by simp [hk'])]
      · rw [List.find?_cons_of_neg _ (by simp [hk']), List.find?_cons_of_neg _ (by simp [hk'])]
        exact ih

theorem find?_filter_self (m : Map) (k : CacheKey) :
    (m.filter (fun p => ¬ p.1 = k)).find? (fun p => p.1 = k) = none := by
  induction m with
  | nil => rfl
  | cons hd tl ih =>
    by_cases hk : hd.1 = k
    · rw [List.filter_cons_of_neg (by simp [hk])]
      exact ih
    · rw [List.filter_cons_of_pos (by simp [hk]), List.find?_cons_of_neg _ (by simp [hk])]
      exact ih

theorem hget_hset_ne (m : Map) (k k' : CacheKey) (v : RawVal) (h : k' ≠ k) :
    hget (hset m k v) k' = hget m k' := by
  show Option.map _ (List.find? _ ((k, v) :: _)) = _
  rw [List.find?_cons_of_neg _ (by simp [Ne.symm h])]
  show Option.map _ ((List.filter _ m).find? _) = _
  rw [find?_filter_ne m k k' h]
  rfl

theorem hget_hdel_self (m : Map) (k : CacheKey) :
    hget (hdel m k) k = none := by
  show Option.map _ ((List.filter _ m).find? _) = _
  rw [find?_filter_self m k]
  rfl

theorem hget_hdel_ne (m : Map) (k k' : CacheKey) (h : k' ≠ k) :
    hget (hdel m k) k' = hget m k' := by
  show Option.map _ ((List.filter _ m).find? _) = _
  rw [find?_filter_ne m k k' h]
  rfl

theorem uaGet_uaSet_self (s : UAStore) (k : String) (v : RawUA) (ttl : Nat) :
    uaGet (uaSet s k v ttl) k = some ⟨v, ttl⟩ := by
  simp [uaGet, uaSet, List.find?]

/-! ### Evaluation lemmas for the mutation operations -/

theorem cacheKey_res_ne_env (kind : ResKind) (id : Nat) (c ns : String) :
    CacheKey.res kind id ≠ CacheKey.env c ns :=
  fun hcon => CacheKey.noConfusion hcon

theorem upsertEnvironment_ok (pid eid : Nat) (name c ns : String) (m : Map) :
    UpsertEnvironment pid eid name c ns false false m =
      (hset (hset m (.res .environment eid) (.ent (envEntity pid eid name c ns)))
        (.env c ns) (.ent (envEntity pid eid name c ns)), none) := rfl

theorem upsertEnvironment_fail2 (pid eid : Nat) (name c ns : String) (m : Map) :
    UpsertEnvironment pid eid name c ns false true m =
      (hset m (.res .environment eid) (.ent (envEntity pid eid name c ns)), some ()) := rfl

theorem delEnvironment_ok (pid eid : Nat) (c ns : String) (m : Map) :
    DelEnvironment pid eid c ns false false m =
      (hdel (hdel m (.res .environment eid)) (.env c ns), none) := rfl

theorem delEnvironment_fail2 (pid eid : Nat) (c ns : String) (m : Map) :
    DelEnvironment pid eid c ns false true m =
      (hdel m (.res .environment eid), some ()) := rfl

/-! ### Claim theorems -/

/-- C3: `BuildCacheIfNotExist` is a no-op whenever the top-level cache key
already exists: against an unchanged relational store and an
already-populated cache it returns success and leaves the cache — its key
set and every stored value — literally unchanged. -/
theorem buildCacheIfNotExist_idempotent (db : DB) (hsetFail : Bool) (m : Map)
    (h : existsKey m = true) :
    BuildCacheIfNotExist db hsetFail m = (m, none) := by
  simp [BuildCacheIfNotExist, h]

theorem buildCacheIfNotExist_idempotent_witness :
    existsKey [(CacheKey.res .tenant 1, RawVal.ent ⟨"t1", .tenant, 1, "", "", []⟩)] = true ∧
      BuildCacheIfNotExist ⟨[⟨1, "t1"⟩], [], [], []⟩ false
          [(CacheKey.res .tenant 1, RawVal.ent ⟨"t1", .tenant, 1, "", "", []⟩)] =
        ([(CacheKey.res .tenant 1, RawVal.ent ⟨"t1", .tenant, 1, "", "", []⟩)], none) :=
  ⟨rfl, buildCacheIfNotExist_idempotent ⟨[⟨1, "t1"⟩], [], [], []⟩ false _ rfl⟩

/-- C10: on an empty relational store, `BuildCacheIfNotExist` succeeds
without writing anything: the cache is unchanged and the top-level key
still does not exist afterwards, so the existence check of every subsequent
call still fails and the full relational scan is performed again. -/
theorem buildCacheIfNotExist_empty_never_latches (db : DB) (hsetFail : Bool) (m : Map)
    (ht : db.tenants = []) (hp : db.projects = []) (he : db.envs = [])
    (hv : db.vspaces = []) (hm : existsKey m = false) :
    BuildCacheIfNotExist db hsetFail m = (m, none) ∧
      existsKey (BuildCacheIfNotExist db hsetFail m).1 = false := by
  obtain ⟨ts, ps, es, vs⟩ := db
  simp only at ht hp he hv
  subst ht hp he hv
  refine ⟨?_, ?_⟩ <;> simp [BuildCacheIfNotExist, buildDataMap, hm]

theorem buildCacheIfNotExist_empty_never_latches_witness :
    BuildCacheIfNotExist ⟨[], [], [], []⟩ false [] = ([], none) ∧
      existsKey (BuildCacheIfNotExist ⟨[], [], [], []⟩ false []).1 = false :=
  buildCacheIfNotExist_empty_never_latches ⟨[], [], [], []⟩ false [] rfl rfl rfl rfl rfl

/-- C4 (code bug): `UpsertVirtualSpace` passes only the cache key — never a
serialized entity — to the hash write, so the command has a key with no
value, always fails with a wrong-arity error, and writes nothing; in
particular after `UpsertVirtualSpace 1 "v1"` on an empty cache,
`FindResource VirtualSpace 1` still finds nothing instead of the upserted
entity. -/
theorem upsertVirtualSpace_never_writes :
    (∀ (vid : Nat) (name : String) (fail : Bool) (m : Map),
        UpsertVirtualSpace vid name fail m = (m, some ())) ∧
      FindResource (UpsertVirtualSpace 1 "v1" false []).1 .virtualSpace 1 = none :=
  ⟨fun _ _ _ _ => rfl, rfl⟩

/-- C2: dual-key consistency for environments — after a successful
`UpsertEnvironment`, both the primary lookup `FindResource Environment eid`
and the secondary lookup `FindEnvironment cluster namespace` return the same
entity, carrying the upserted id and name; after a successful
`DelEnvironment`, both lookups report not-found. -/
theorem upsertEnvironment_dual_key_consistency (pid eid : Nat) (name c ns : String)
    (f1 f2 g1 g2 : Bool) (m m' : Map)
    (hup : (UpsertEnvironment pid eid name c ns f1 f2 m).2 = none)
    (hde : (DelEnvironment pid eid c ns g1 g2 m').2 = none) :
    (FindResource (UpsertEnvironment pid eid name c ns f1 f2 m).1 .environment eid =
        some (envEntity pid eid name c ns) ∧
      FindEnvironment (UpsertEnvironment pid eid name c ns f1 f2 m).1 c ns =
        some (envEntity pid eid name c ns) ∧
      (envEntity pid eid name c ns).id = eid ∧ (envEntity pid eid name c ns).name = name) ∧
    (FindResource (DelEnvironment pid eid c ns g1 g2 m').1 .environment eid = none ∧
      FindEnvironment (DelEnvironment pid eid c ns g1 g2 m').1 c ns = none) := by
  cases f1 with
  | true => exact Option.noConfusion hup
  | false =>
    cases f2 with
    | true => exact Option.noConfusion hup
    | false =>
      cases g1 with
      | true => exact Option.noConfusion hde
      | false =>
        cases g2 with
        | true => exact Option.noConfusion hde
        | false =>
          refine ⟨⟨?_, ?_, rfl, rfl⟩, ?_, ?_⟩
          · show (hget (hset (hset m (CacheKey.res .environment eid)
                (RawVal.ent (envEntity pid eid name c ns))) (CacheKey.env c ns)
                (RawVal.ent (envEntity pid eid name c ns)))
                (CacheKey.res .environment eid)).bind decodeRaw =
              some (envEntity pid eid name c ns)
            rw [hget_hset_ne _ _ _ _ (cacheKey_res_ne_env _ _ _ _), hget_hset_self]
            rfl
          · show (hget (hset (hset m (CacheKey.res .environment eid)
                (RawVal.ent (envEntity pid eid name c ns))) (CacheKey.env c ns)
                (RawVal.ent (envEntity pid eid name c ns)))
                (CacheKey.env c ns)).bind decodeRaw = some (envEntity pid eid name c ns)
            rw [hget_hset_self]
            rfl
          · show (hget (hdel (hdel m' (CacheKey.res .environment eid)) (CacheKey.env c ns))
                (CacheKey.res .environment eid)).bind decodeRaw = none
            rw [hget_hdel_ne _ _ _ (cacheKey_res_ne_env _ _ _ _), hget_hdel_self]
            rfl
          · show (hget (hdel (hdel m' (CacheKey.res .environment eid)) (CacheKey.env c ns))
                (CacheKey.env c ns)).bind decodeRaw = none
            rw [hget_hdel_self]
            rfl

theorem upsertEnvironment_dual_key_consistency_witness :
    (FindResource (UpsertEnvironment 1 2 "e" "c1" "ns1" false false []).1 .environment 2 =
        some (envEntity 1 2 "e" "c1" "ns1") ∧
      FindEnvironment (UpsertEnvironment 1 2 "e" "c1" "ns1" false false []).1 "c1" "ns1" =
        some (envEntity 1 2 "e" "c1" "ns1") ∧
      (envEntity 1 2 "e" "c1" "ns1").id = 2 ∧ (envEntity 1 2 "e" "c1" "ns1").name = "e") ∧
    (FindResource (DelEnvironment 1 2 "c1" "ns1" false false []).1 .environment 2 = none ∧
      FindEnvironment (DelEnvironment 1 2 "c1" "ns1" false false []).1 "c1" "ns1" = none) :=
  upsertEnvironment_dual_key_consistency 1 2 "e" "c1" "ns1" false false false false [] [] rfl rfl

/-- C9: environment writes are not atomic across the two keys — when the
secondary write of `UpsertEnvironment` fails, the call returns an error yet
the primary entry has already been replaced (and the secondary left as it
was); when the second deletion of `DelEnvironment` fails, the call returns
an error yet the primary entry is already gone while the secondary entry
remains untouched. -/
theorem environment_writes_not_atomic (pid eid : Nat) (name c ns : String) (m : Map) :
    ((UpsertEnvironment pid eid name c ns false true m).2 = some () ∧
      hget (UpsertEnvironment pid eid name c ns false true m).1 (.res .environment eid) =
        some (.ent (envEntity pid eid name c ns)) ∧
      hget (UpsertEnvironment pid eid name c ns false true m).1 (.env c ns) =
        hget m (.env c ns)) ∧
    ((DelEnvironment pid eid c ns false true m).2 = some () ∧
      hget (DelEnvironment pid eid c ns false true m).1 (.res .environment eid) = none ∧
      hget (DelEnvironment pid eid c ns false true m).1 (.env c ns) = hget m (.env c ns)) := by
  rw [upsertEnvironment_fail2, delEnvironment_fail2]
  exact ⟨⟨rfl, hget_hset_self .., hget_hset_ne _ _ _ _ (cacheKey_res_ne_env _ _ _ _).symm⟩,
    rfl, hget_hdel_self .., hget_hdel_ne _ _ _ (cacheKey_res_ne_env _ _ _ _).symm⟩

theorem cacheKey_res_ne_res {k1 k2 : ResKind} (h : k1 ≠ k2) (i j : Nat) :
    CacheKey.res k1 i ≠ CacheKey.res k2 j := by
  intro hcon
  injection hcon with h1 h2
  exact h h1

theorem hget_redisHSet_pair_ne (m : Map) (k : CacheKey) (v : RawVal) (k' : CacheKey)
    (fail : Bool) (h : k' ≠ k) :
    hget (redisHSet m [.K k, .V v] fail).1 k' = hget m k' := by
  cases fail with
  | true => rfl
  | false => exact hget_hset_ne m k k' v h

theorem hget_redisHDel_ne (m : Map) (k k' : CacheKey) (fail : Bool) (h : k' ≠ k) :
    hget (redisHDel m k fail).1 k' = hget m k' := by
  cases fail with
  | true => rfl
  | false => exact hget_hdel_ne m k k' h

/-- C7: the mutation frame property — every upsert and delete of the
mutation API leaves every cache key other than the mutated entity's own
key(s) unchanged, whether or not the underlying write succeeds; in
particular `DelProject` leaves both entries of any child environment
untouched. -/
theorem mutation_frame (m : Map) (fail f1 f2 : Bool) (tid pid eid vid : Nat)
    (name c ns : String) (k : CacheKey) :
    (k ≠ .res .tenant tid → hget (UpsertTenant tid name fail m).1 k = hget m k) ∧
    (k ≠ .res .tenant tid → hget (DelTenant tid fail m).1 k = hget m k) ∧
    (k ≠ .res .project pid → hget (UpsertProject tid pid name fail m).1 k = hget m k) ∧
    (k ≠ .res .project pid → hget (DelProject tid pid fail m).1 k = hget m k) ∧
    (k ≠ .res .environment eid → k ≠ .env c ns →
      hget (UpsertEnvironment pid eid name c ns f1 f2 m).1 k = hget m k) ∧
    (k ≠ .res .environment eid → k ≠ .env c ns →
      hget (DelEnvironment pid eid c ns f1 f2 m).1 k = hget m k) ∧
    (hget (UpsertVirtualSpace vid name fail m).1 k = hget m k) ∧
    (k ≠ .res .virtualSpace vid → hget (DelVirtualSpace vid fail m).1 k = hget m k) ∧
    (hget (DelProject tid pid fail m).1 (.res .environment eid) =
      hget m (.res .environment eid)) ∧
    (hget (DelProject tid pid fail m).1 (.env c ns) = hget m (.env c ns)) := by
  refine ⟨fun h => hget_redisHSet_pair_ne m _ _ k fail h,
    fun h => hget_redisHDel_ne m _ k fail h,
    fun h => hget_redisHSet_pair_ne m _ _ k fail h,
    fun h => hget_redisHDel_ne m _ k fail h,
    ?_, ?_,
    ?_,
    fun h => hget_redisHDel_ne m _ k fail h,
    hget_redisHDel_ne m _ _ fail (cacheKey_res_ne_res (by decide) eid pid),
    hget_redisHDel_ne m _ _ fail (cacheKey_res_ne_env .project pid c ns).symm⟩
  · intro h1 h2
    cases f1 with
    | true => rfl
    | false =>
      cases f2 with
      | true =>
        rw [upsertEnvironment_fail2]
        exact hget_hset_ne m _ k _ h1
      | false =>
        rw [upsertEnvironment_ok]
        exact (hget_hset_ne _ _ k _ h2).trans (hget_hset_ne m _ k _ h1)
  · intro h1 h2
    cases f1 with
    | true => rfl
    | false =>
      cases f2 with
      | true =>
        rw [delEnvironment_fail2]
        exact hget_hdel_ne m _ k h1
      | false =>
        rw [delEnvironment_ok]
        exact (hget_hdel_ne _ _ k h2).trans (hget_hdel_ne m _ k h1)
  · cases fail with
    | true => rfl
    | false => rfl

theorem mutation_frame_witness :
    (hget (UpsertTenant 1 "x" false []).1 (.res .tenant 99) = hget [] (.res .tenant 99)) ∧
    (hget (DelTenant 1 false []).1 (.res .tenant 99) = hget [] (.res .tenant 99)) ∧
    (hget (UpsertProject 1 2 "x" false []).1 (.res .tenant 99) = hget [] (.res .tenant 99)) ∧
    (hget (DelProject 1 2 false []).1 (.res .tenant 99) = hget [] (.res .tenant 99)) ∧
    (hget (UpsertEnvironment 2 3 "x" "c1" "n1" false false []).1 (.res .tenant 99) =
      hget [] (.res .tenant 99)) ∧
    (hget (DelEnvironment 2 3 "c1" "n1" false false []).1 (.res .tenant 99) =
      hget [] (.res .tenant 99)) ∧
    (hget (UpsertVirtualSpace 4 "x" false []).1 (.res .tenant 99) = hget [] (.res .tenant 99)) ∧
    (hget (DelVirtualSpace 4 false []).1 (.res .tenant 99) = hget [] (.res .tenant 99)) ∧
    (hget (DelProject 1 2 false []).1 (.res .environment 3) = hget [] (.res .environment 3)) ∧
    (hget (DelProject 1 2 false []).1 (.env "c1" "n1") = hget [] (.env "c1" "n1")) := by
  have h := mutation_frame [] false false false 1 2 3 4 "x" "c1" "n1" (.res .tenant 99)
  exact ⟨h.1 (by decide), h.2.1 (by decide), h.2.2.1 (by decide), h.2.2.2.1 (by decide),
    h.2.2.2.2.1 (by decide) (by decide), h.2.2.2.2.2.1 (by decide) (by decide),
    h.2.2.2.2.2.2.1, h.2.2.2.2.2.2.2.1 (by decide),
    h.2.2.2.2.2.2.2.2.1, h.2.2.2.2.2.2.2.2.2⟩

theorem findParentChain_step (m : Map) (fuel : Nat) (kind : ResKind) (id : Nat)
    (raw praw : RawVal) (o : OwnerRef) (rest : List OwnerRef)
    (h1 : hget m (.res kind id) = some raw) (h2 : rawOwner raw = o :: rest)
    (h3 : hget m (.res o.kind o.id) = some praw) :
    findParentChain m (fuel + 1) kind id = praw :: findParentChain m fuel o.kind o.id := by
  simp only [findParentChain, h1, h2, h3]

theorem findParentChain_stop (m : Map) (fuel : Nat) (kind : ResKind) (id : Nat)
    (raw : RawVal) (h1 : hget m (.res kind id) = some raw) (h2 : rawOwner raw = []) :
    findParentChain m (fuel + 1) kind id = [] := by
  simp only [findParentChain, h1, h2]

/-- C1: ancestry correctness of `FindParents` — for a cached chain tenant
`T` owning project `P` owning environment `E`, `FindParents Environment e1`
returns exactly `[P, T]` nearest-parent-first; for a cached virtual space
(whose stored owner list is empty, as both the tree builder and the
mutation API write it), `FindParents VirtualSpace v1` returns `[]`; and in
the concrete scenario `Tenant(1,"acme")`, `Project(2,tenant 1,"web")`,
after `BuildCacheIfNotExist` the project's entry has owners `[{Tenant,1}]`
and `FindParents Project 2` is `[Entity{Tenant,1,"acme"}]`. -/
theorem findParents_ancestry (m : Map) (t1 p1 e1 v1 : Nat) (T P E : Entity) (vraw : RawVal)
    (hE : hget m (.res .environment e1) = some (.ent E))
    (hEo : E.owner = [⟨.project, p1⟩])
    (hP : hget m (.res .project p1) = some (.ent P))
    (hPo : P.owner = [⟨.tenant, t1⟩])
    (hT : hget m (.res .tenant t1) = some (.ent T))
    (hV : hget m (.res .virtualSpace v1) = some vraw)
    (hVo : rawOwner vraw = []) :
    FindParents m false .environment e1 = [P, T] ∧
    FindParents m false .virtualSpace v1 = [] ∧
    FindResource (BuildCacheIfNotExist ⟨[⟨1, "acme"⟩], [⟨2, 1, "web"⟩], [], []⟩ false []).1
        .project 2 = some ⟨"web", .project, 2, "", "", [⟨.tenant, 1⟩]⟩ ∧
    FindParents (BuildCacheIfNotExist ⟨[⟨1, "acme"⟩], [⟨2, 1, "web"⟩], [], []⟩ false []).1
        false .project 2 = [⟨"acme", .tenant, 1, "", "", []⟩] := by
  refine ⟨?_, ?_, rfl, rfl⟩
  · show (findParentChain m (0 + 1 + 1) .environment e1).filterMap decodeRaw = [P, T]
    rw [findParentChain_step m (0 + 1) .environment e1 (.ent E) (.ent P) ⟨.project, p1⟩ []
        hE hEo hP,
      findParentChain_step m 0 .project p1 (.ent P) (.ent T) ⟨.tenant, t1⟩ [] hP hPo hT]
    rfl
  · show (findParentChain m (0 + 1 + 1) .virtualSpace v1).filterMap decodeRaw = []
    rw [findParentChain_stop m (0 + 1) .virtualSpace v1 vraw hV hVo]
    rfl

theorem findParents_ancestry_witness :
    FindParents
        [(CacheKey.res .environment 30, RawVal.ent ⟨"e1", .environment, 30, "n1", "c1",
            [⟨.project, 20⟩]⟩),
          (CacheKey.res .project 20, RawVal.ent ⟨"p1", .project, 20, "", "", [⟨.tenant, 10⟩]⟩),
          (CacheKey.res .tenant 10, RawVal.ent ⟨"t1", .tenant, 10, "", "", []⟩),
          (CacheKey.res .virtualSpace 40, RawVal.ent ⟨"v1", .virtualSpace, 40, "", "", []⟩)]
        false .environment 30 =
      [⟨"p1", .project, 20, "", "", [⟨.tenant, 10⟩]⟩, ⟨"t1", .tenant, 10, "", "", []⟩] ∧
    FindParents
        [(CacheKey.res .environment 30, RawVal.ent ⟨"e1", .environment, 30, "n1", "c1",
            [⟨.project, 20⟩]⟩),
          (CacheKey.res .project 20, RawVal.ent ⟨"p1", .project, 20, "", "", [⟨.tenant, 10⟩]⟩),
          (CacheKey.res .tenant 10, RawVal.ent ⟨"t1", .tenant, 10, "", "", []⟩),
          (CacheKey.res .virtualSpace 40, RawVal.ent ⟨"v1", .virtualSpace, 40, "", "", []⟩)]
        false .virtualSpace 40 = [] ∧
    FindResource (BuildCacheIfNotExist ⟨[⟨1, "acme"⟩], [⟨2, 1, "web"⟩], [], []⟩ false []).1
        .project 2 = some ⟨"web", .project, 2, "", "", [⟨.tenant, 1⟩]⟩ ∧
    FindParents (BuildCacheIfNotExist ⟨[⟨1, "acme"⟩], [⟨2, 1, "web"⟩], [], []⟩ false []).1
        false .project 2 = [⟨"acme", .tenant, 1, "", "", []⟩] :=
  findParents_ancestry _ 10 20 30 40 ⟨"t1", .tenant, 10, "", "", []⟩
    ⟨"p1", .project, 20, "", "", [⟨.tenant, 10⟩]⟩
    ⟨"e1", .environment, 30, "n1", "c1", [⟨.project, 20⟩]⟩
    (RawVal.ent ⟨"v1", .virtualSpace, 40, "", "", []⟩)
    rfl rfl rfl rfl rfl rfl rfl

/-- C8: error behavior of `FindParents` — when the server-side script
evaluation fails, the call returns an empty result instead of propagating
the error; when an intermediate ancestor in the chain fails client-side
deserialization, it is skipped and the traversal's remaining decodable
ancestors are still returned. -/
theorem findParents_error_handling (m : Map) (kind : ResKind) (id t1 p1 e1 : Nat)
    (E P T : Entity)
    (hE : hget m (.res .environment e1) = some (.ent E))
    (hEo : E.owner = [⟨.project, p1⟩])
    (hP : hget m (.res .project p1) = some (.mangled P))
    (hPo : P.owner = [⟨.tenant, t1⟩])
    (hT : hget m (.res .tenant t1) = some (.ent T)) :
    FindParents m true kind id = [] ∧
    FindParents m false .environment e1 = [T] := by
  refine ⟨rfl, ?_⟩
  show (findParentChain m (0 + 1 + 1) .environment e1).filterMap decodeRaw = [T]
  rw [findParentChain_step m (0 + 1) .environment e1 (.ent E) (.mangled P) ⟨.project, p1⟩ []
      hE hEo hP,
    findParentChain_step m 0 .project p1 (.mangled P) (.ent T) ⟨.tenant, t1⟩ [] hP hPo hT]
  rfl

theorem findParents_error_handling_witness :
    FindParents
        [(CacheKey.res .environment 30, RawVal.ent ⟨"e1", .environment, 30, "n1", "c1",
            [⟨.project, 20⟩]⟩),
          (CacheKey.res .project 20, RawVal.mangled ⟨"p1", .project, 20, "", "",
            [⟨.tenant, 10⟩]⟩),
          (CacheKey.res .tenant 10, RawVal.ent ⟨"t1", .tenant, 10, "", "", []⟩)]
        true .environment 30 = [] ∧
    FindParents
        [(CacheKey.res .environment 30, RawVal.ent ⟨"e1", .environment, 30, "n1", "c1",
            [⟨.project, 20⟩]⟩),
          (CacheKey.res .project 20, RawVal.mangled ⟨"p1", .project, 20, "", "",
            [⟨.tenant, 10⟩]⟩),
          (CacheKey.res .tenant 10, RawVal.ent ⟨"t1", .tenant, 10, "", "", []⟩)]
        false .environment 30 = [⟨"t1", .tenant, 10, "", "", []⟩] :=
  findParents_error_handling _ .environment 30 10 20 30
    ⟨"e1", .environment, 30, "n1", "c1", [⟨.project, 20⟩]⟩
    ⟨"p1", .project, 20, "", "", [⟨.tenant, 10⟩]⟩
    ⟨"t1", .tenant, 10, "", "", []⟩
    rfl rfl rfl rfl rfl

theorem flushUserAuthority_writeback (user : User) (db : AuthDB)
    (sf tf pf ef vf : Bool) (s : UAStore) :
    (FlushUserAuthority user db ⟨sf, tf, pf, ef, vf, false⟩ s).2 =
      uaSet s (userAuthorityKey user.username)
        (.ua (FlushUserAuthority user db ⟨sf, tf, pf, ef, vf, false⟩ s).1)
        userAuthorizationDataExpireMinute := rfl

/-- C5: authority fallback — when the per-user cache entry is absent or
cannot be deserialized, `GetUserAuthority` returns exactly what
`FlushUserAuthority` computes and, the write-back succeeding, leaves a
freshly written cache entry holding that value for the user. -/
theorem getUserAuthority_fallback (user : User) (db : AuthDB) (f : FlushFails) (s : UAStore)
    (hmiss : (uaGet s (userAuthorityKey user.username)).bind
      (fun e => decodeRawUA e.value) = none)
    (hw : f.cacheWrite = false) :
    GetUserAuthority user db f s = FlushUserAuthority user db f s ∧
    uaGet (GetUserAuthority user db f s).2 (userAuthorityKey user.username) =
      some ⟨.ua (GetUserAuthority user db f s).1, userAuthorizationDataExpireMinute⟩ := by
  obtain ⟨sf, tf, pf, ef, vf, wf⟩ := f
  cases wf with
  | true => exact Bool.noConfusion hw
  | false =>
    have h1 : GetUserAuthority user db ⟨sf, tf, pf, ef, vf, false⟩ s =
        FlushUserAuthority user db ⟨sf, tf, pf, ef, vf, false⟩ s := by
      simp only [GetUserAuthority, hmiss]
    refine ⟨h1, ?_⟩
    rw [h1, flushUserAuthority_writeback, uaGet_uaSet_self]

theorem getUserAuthority_fallback_witness :
    GetUserAuthority ⟨"alice", 7, 1⟩ ⟨[⟨1, "sysadmin"⟩], [⟨7, 3, "acme", "admin"⟩], [], [], []⟩
        ⟨false, false, false, false, false, false⟩ [] =
      FlushUserAuthority ⟨"alice", 7, 1⟩
        ⟨[⟨1, "sysadmin"⟩], [⟨7, 3, "acme", "admin"⟩], [], [], []⟩
        ⟨false, false, false, false, false, false⟩ [] ∧
    uaGet (GetUserAuthority ⟨"alice", 7, 1⟩
        ⟨[⟨1, "sysadmin"⟩], [⟨7, 3, "acme", "admin"⟩], [], [], []⟩
        ⟨false, false, false, false, false, false⟩ []).2 (userAuthorityKey "alice") =
      some ⟨.ua (GetUserAuthority ⟨"alice", 7, 1⟩
        ⟨[⟨1, "sysadmin"⟩], [⟨7, 3, "acme", "admin"⟩], [], [], []⟩
        ⟨false, false, false, false, false, false⟩ []).1,
        userAuthorizationDataExpireMinute⟩ :=
  getUserAuthority_fallback ⟨"alice", 7, 1⟩
    ⟨[⟨1, "sysadmin"⟩], [⟨7, 3, "acme", "admin"⟩], [], [], []⟩
    ⟨false, false, false, false, false, false⟩ [] rfl rfl

/-- C6: degraded success of `FlushUserAuthority` — the aggregator always
returns a (total, hence non-nil) result; a failed relational query for one
relation kind empties exactly that kind's list while leaving every other
kind's list as computed; on success the result is written back under the
user's key with the fixed 180-minute time-to-live; and a write-back failure
is not propagated: the freshly computed value is still returned and the
store is simply left untouched. -/
theorem flushUserAuthority_degraded (user : User) (db : AuthDB)
    (sf tf pf ef vf : Bool) (s : UAStore) :
    ((FlushUserAuthority user db ⟨sf, true, pf, ef, vf, false⟩ s).1.tenants = [] ∧
      (FlushUserAuthority user db ⟨sf, true, pf, ef, vf, false⟩ s).1.projects =
        (FlushUserAuthority user db ⟨sf, tf, pf, ef, vf, false⟩ s).1.projects ∧
      (FlushUserAuthority user db ⟨sf, true, pf, ef, vf, false⟩ s).1.environments =
        (FlushUserAuthority user db ⟨sf, tf, pf, ef, vf, false⟩ s).1.environments ∧
      (FlushUserAuthority user db ⟨sf, true, pf, ef, vf, false⟩ s).1.virtualSpaces =
        (FlushUserAuthority user db ⟨sf, tf, pf, ef, vf, false⟩ s).1.virtualSpaces) ∧
    ((FlushUserAuthority user db ⟨sf, tf, true, ef, vf, false⟩ s).1.projects = [] ∧
      (FlushUserAuthority user db ⟨sf, tf, true, ef, vf, false⟩ s).1.tenants =
        (FlushUserAuthority user db ⟨sf, tf, pf, ef, vf, false⟩ s).1.tenants ∧
      (FlushUserAuthority user db ⟨sf, tf, true, ef, vf, false⟩ s).1.environments =
        (FlushUserAuthority user db ⟨sf, tf, pf, ef, vf, false⟩ s).1.environments ∧
      (FlushUserAuthority user db ⟨sf, tf, true, ef, vf, false⟩ s).1.virtualSpaces =
        (FlushUserAuthority user db ⟨sf, tf, pf, ef, vf, false⟩ s).1.virtualSpaces) ∧
    ((FlushUserAuthority user db ⟨sf, tf, pf, true, vf, false⟩ s).1.environments = [] ∧
      (FlushUserAuthority user db ⟨sf, tf, pf, true, vf, false⟩ s).1.tenants =
        (FlushUserAuthority user db ⟨sf, tf, pf, ef, vf, false⟩ s).1.tenants ∧
      (FlushUserAuthority user db ⟨sf, tf, pf, true, vf, false⟩ s).1.projects =
        (FlushUserAuthority user db ⟨sf, tf, pf, ef, vf, false⟩ s).1.projects ∧
      (FlushUserAuthority user db ⟨sf, tf, pf, true, vf, false⟩ s).1.virtualSpaces =
        (FlushUserAuthority user db ⟨sf, tf, pf, ef, vf, false⟩ s).1.virtualSpaces) ∧
    ((FlushUserAuthority user db ⟨sf, tf, pf, ef, true, false⟩ s).1.virtualSpaces = [] ∧
      (FlushUserAuthority user db ⟨sf, tf, pf, ef, true, false⟩ s).1.tenants =
        (FlushUserAuthority user db ⟨sf, tf, pf, ef, vf, false⟩ s).1.tenants ∧
      (FlushUserAuthority user db ⟨sf, tf, pf, ef, true, false⟩ s).1.projects =
        (FlushUserAuthority user db ⟨sf, tf, pf, ef, vf, false⟩ s).1.projects ∧
      (FlushUserAuthority user db ⟨sf, tf, pf, ef, true, false⟩ s).1.environments =
        (FlushUserAuthority user db ⟨sf, tf, pf, ef, vf, false⟩ s).1.environments) ∧
    (uaGet (FlushUserAuthority user db ⟨sf, tf, pf, ef, vf, false⟩ s).2
        (userAuthorityKey user.username) =
      some ⟨.ua (FlushUserAuthority user db ⟨sf, tf, pf, ef, vf, false⟩ s).1,
        userAuthorizationDataExpireMinute⟩ ∧
      userAuthorizationDataExpireMinute = 180) ∧
    ((FlushUserAuthority user db ⟨sf, tf, pf, ef, vf, true⟩ s).1 =
      (FlushUserAuthority user db ⟨sf, tf, pf, ef, vf, false⟩ s).1 ∧
      (FlushUserAuthority user db ⟨sf, tf, pf, ef, vf, true⟩ s).2 = s) := by
  refine ⟨⟨rfl, rfl, rfl, rfl⟩, ⟨rfl, rfl, rfl, rfl⟩, ⟨rfl, rfl, rfl, rfl⟩,
    ⟨rfl, rfl, rfl, rfl⟩, ⟨?_, rfl⟩, rfl, rfl⟩
  rw [flushUserAuthority_writeback, uaGet_uaSet_self]

end KubegemsCache
